import Mathlib

/-
  Verification development for the PubMed scraper (src/scrape_pubmed.py).

  Shallow embedding conventions:
  - BeautifulSoup parsing plus CSS selection is modelled by an environment
    function `select : String → String → List String`, taking the raw html and a
    selector string to the list of stripped-ready node texts in document order
    (the select call `soup.select(value)` followed by `e.text` per node).
  - The network (aiohttp) is modelled by `fetch : String → FetchBehavior`,
    deciding per URL whether the request yields a body, an asyncio.TimeoutError,
    or another (uncaught) transport exception.
  - pandas is an external collaborator; its operations used by the script
    (DataFrame construction from a list of records, concat along axis 1,
    to_csv with index=False, column selection) are modelled after the
    documented/observable pandas constructor semantics, recorded in the doc
    comment of each pandas-model definition.
  - The asyncio semaphore / gather concurrency is modelled as a small-step
    transition system further below; the per-URL coroutine result is
    deterministic given the environment, and the machine shows it lands in the
    slot of its own index for every interleaving.
-/

namespace PubmedScraper

/-- Value held by one cell of a pandas DataFrame as used by the script:
`na` stands for a missing value (pd.NA or NaN or a None left in an object
column), `text` for a string value, and `obj` for a whole Python dict stored
as an object cell (arises only on the degenerate ndarray constructor path). -/
inductive Cell
  | na
  | text (s : String)
  | obj (r : List (String × Option String))
deriving DecidableEq

/-- A scraped record: the dict built by scrape_data, as an ordered association
list; `none` in the value position is pd.NA (selector matched nothing). -/
abbrev Record := List (String × Option String)

/-- Python exceptions that can escape the pieces of the script that matter
here: KeyError from column selection, an uncaught aiohttp/network transport
exception, and the AttributeError raised by the pandas records constructor on
a None entry. -/
inductive Err
  | keyError (col : String)
  | transport (msg : String)
  | attributeError (msg : String)
deriving DecidableEq

/-- Outcome of the network request for one URL, as decided by the environment:
a body text, an asyncio.TimeoutError, or another transport-level exception. -/
inductive FetchBehavior
  | success (html : String)
  | timeout
  | transportError (msg : String)
deriving DecidableEq

/-- The external world: the network behavior per URL and the parse-then-select
function (html text and selector to matched node texts in document order). -/
structure Env where
  fetch : String → FetchBehavior
  select : String → String → List String

/-- The fixed field-to-selector mapping of scrape_data
(src/scrape_pubmed.py lines 103-116), in dict insertion order. -/
def elements : List (String × String) :=
  [ ("title", "header#heading.heading div#full-view-heading.full-view h1.heading-title"),
    ("publication_type", "header#heading.heading div#short-view-heading.short-view div.publication-type"),
    ("journal", "header#heading.heading div#full-view-heading.full-view div.article-citation div.article-source div.journal-actions.dropdown-block button#full-view-journal-trigger.journal-actions-trigger.trigger"),
    ("coi", "div#conflict-of-interest.conflict-of-interest div.statement p"),
    ("grants", "div#grants.grants"),
    ("authors", "header#heading.heading div#full-view-heading.full-view div.inline-authors div.authors div.authors-list"),
    ("abstracts", "div#abstract.abstract div#eng-abstract.abstract-content.selected"),
    ("pmid", "header#heading.heading div#full-view-heading.full-view ul#full-view-identifiers.identifiers li span.identifier.pubmed strong.current-id"),
    ("pmcid", "header#heading.heading div#full-view-heading.full-view ul#full-view-identifiers.identifiers li span.identifier.pmc a.id-link"),
    ("doi", "header#heading.heading div#full-view-heading.full-view ul#full-view-identifiers.identifiers li span.identifier.doi a.id-link"),
    ("citation", "header#heading.heading div#full-view-heading.full-view div.article-citation div.article-source span.cit"),
    ("erratum", "main#article-details.article-details div#linked-correction-forward.linked-articles") ]

/-- The twelve field names, in the insertion order of the `elements` dict. -/
def fieldNames : List String :=
  [ "title", "publication_type", "journal", "coi", "grants", "authors",
    "abstracts", "pmid", "pmcid", "doi", "citation", "erratum" ]

/-- One field of the extraction loop (line 121): the matched nodes are the
`select` result; nonempty gives the stripped texts joined by one space,
empty gives pd.NA (here `none`). -/
def extractField (sel : String → List String) (value : String) : Option String :=
  let element := sel value
  if element.isEmpty then none
  else some (String.intercalate " " (element.map String.trim))

/-- The `texts` dict built by scrape_data (lines 118-121) from a parsed
document, keyed and ordered exactly as `elements`. -/
def texts (sel : String → List String) : Record :=
  elements.map (fun kv => (kv.1, extractField sel kv.2))

/-- The diagnostic printed by get_html_content on a timeout (line 93). -/
def timeoutDiagnostic (url : String) : String :=
  "TimeoutError occurred while fetching " ++ url

/-- Functional core of get_html_content (lines 84-94): on success the body
text, on asyncio.TimeoutError the value None (here `.ok none`), on any other
transport exception the exception propagates (here `.error`). The semaphore
and the sleep are timing behavior, modelled separately by the transition
system and the event trace below. -/
def get_html_content (env : Env) (url : String) : Except Err (Option String) :=
  match env.fetch url with
  | .success html => .ok (some html)
  | .timeout => .ok none
  | .transportError msg => .error (.transport msg)

/-- Console lines printed by get_html_content for one URL (line 93): the
timeout diagnostic names the URL; nothing is printed otherwise. -/
def get_html_printed (env : Env) (url : String) : List String :=
  match env.fetch url with
  | .timeout => [timeoutDiagnostic url]
  | _ => []

/-- scrape_data (lines 96-123): fetch, return None on a failed fetch (line
99-100), otherwise parse and extract the twelve fields. -/
def scrape_data (env : Env) (url : String) : Except Err (Option Record) :=
  match get_html_content env url with
  | .error e => .error e
  | .ok none => .ok none
  | .ok (some html) => .ok (some (texts (env.select html)))

/-- Model of asyncio.gather with return_exceptions left False (line 128): if
every task returns, the list of results in task (input) order; if any task
raises, the exception propagates and all other results are lost. Which
raising task wins in real time depends on scheduling; the model
deterministically surfaces the leftmost one, and the theorems only use
whether gather raises, not which exception it picks. -/
def gather : List (Except Err α) → Except Err (List α)
  | [] => .ok []
  | .error e :: _ => .error e
  | .ok a :: rest =>
      match gather rest with
      | .error e => .error e
      | .ok as => .ok (a :: as)

/-- A pandas DataFrame as the script uses it: a row count and ordered,
labelled columns (integer labels such as the RangeIndex label 0 are rendered
as their decimal strings). -/
structure Table where
  nRows : Nat
  cols : List (String × List Cell)
deriving DecidableEq

/-- Column labels inferred by the pandas records constructor: the union of
the dict keys in first-seen order (pandas fast_unique_multiple_list_gen over
the key lists of the records). -/
def unionKeys (rs : List Record) : List String :=
  rs.foldl (fun acc r => acc ++ ((r.map Prod.fst).filter (fun k => k ∉ acc))) []

/-- Cell of a record under a column label: NA for a missing key and for a
stored pd.NA value. -/
def recCell (r : Record) (k : String) : Cell :=
  match r.lookup k with
  | some (some s) => .text s
  | some none => .na
  | none => .na

/-- Model of pd.DataFrame(results) for a list whose entries are dicts or
None, per the pandas list-constructor dispatch:
- an empty list yields an empty frame with no columns;
- when the first entry is a dict the records path is taken
  (treat_as_nested checks the first element); column labels come from the
  keys of every entry, so a None entry raises
  AttributeError (NoneType has no attribute keys) inside
  the column inference and the constructor fails;
- when the first entry is None the list is not treated as records and falls
  to the ndarray path: a single column with RangeIndex label 0 whose cells
  are the raw entries (None becomes a missing value, a dict is stored whole
  as an object cell). -/
def pdDataFrame (results : List (Option Record)) : Except Err Table :=
  match results with
  | [] => .ok ⟨0, []⟩
  | none :: _ =>
      .ok ⟨results.length,
            [("0", results.map (fun x => match x with
                                         | none => Cell.na
                                         | some r => Cell.obj r))]⟩
  | some _ :: _ =>
      if results.any (fun x => x.isNone) then
        .error (.attributeError "NoneType object has no attribute keys")
      else
        let recs := results.filterMap id
        .ok ⟨results.length,
              (unionKeys recs).map (fun k => (k, recs.map (fun r => recCell r k)))⟩

/-- Index alignment padding used by pd.concat: a short column is extended
with missing values up to the row count of the result. -/
def padTo (n : Nat) (cs : List Cell) : List Cell :=
  cs ++ List.replicate (n - cs.length) Cell.na

/-- Model of pd.concat([a, b], axis=1) on default RangeIndex frames: columns
of `a` then columns of `b`, aligned on the union of the row indices. -/
def pdConcatAxis1 (a b : Table) : Table :=
  ⟨max a.nRows b.nRows,
    (a.cols.map (fun kc => (kc.1, padTo (max a.nRows b.nRows) kc.2)))
      ++ (b.cols.map (fun kc => (kc.1, padTo (max a.nRows b.nRows) kc.2)))⟩

/-- The single-column frame self.df holding the url column after load_data
(line 82). -/
def urlTable (urls : List String) : Table :=
  ⟨urls.length, [("url", urls.map Cell.text)]⟩

/-- scrape_all (lines 125-130): one scrape_data task per url in input order,
gathered jointly; the results become a DataFrame which is concatenated to the
url column along axis 1. -/
def scrape_all (env : Env) (urls : List String) : Except Err Table :=
  match gather (urls.map (scrape_data env)) with
  | .error e => .error e
  | .ok results =>
      match pdDataFrame results with
      | .error e => .error e
      | .ok scraped => .ok (pdConcatAxis1 (urlTable urls) scraped)

/-- Header written by df.to_csv(path, index=index): with index=True a
surrogate index column is prepended, with index=False the frame columns
alone. save_results passes index=False (line 151). -/
def to_csv_header (t : Table) (index : Bool) : List String :=
  (if index then [""] else []) ++ t.cols.map Prod.fst

/-- The input CSV at the interface used by load_data: its column names and
the values of its url column (used only when that column exists). -/
structure InputFile where
  columns : List String
  urls : List String

/-- load_data (lines 79-82): read the CSV, then select [["url"]]; a missing
url column raises KeyError before anything else happens. -/
def load_data (input : InputFile) : Except Err (List String) :=
  if "url" ∈ input.columns then .ok input.urls else .error (.keyError "url")

/-- Externally visible actions of a run, in order: a fetch attempted for a
URL, and the output file written. -/
inductive Ev
  | fetchAttempt (url : String)
  | fileWrite (path : String)
deriving DecidableEq

/-- main (lines 155-161): load_data, scrape_all, save_results, in that
order; an exception at any stage aborts the rest. The event list records
which fetches were attempted and whether the output file was written. -/
def mainRun (env : Env) (input : InputFile) (outputFile : String) :
    Except Err Table × List Ev :=
  match load_data input with
  | .error e => (.error e, [])
  | .ok urls =>
      match scrape_all env urls with
      | .error e => (.error e, urls.map Ev.fetchAttempt)
      | .ok t => (.ok t, urls.map Ev.fetchAttempt ++ [Ev.fileWrite outputFile])

/-
  Concurrency model of scrape_all: one task per URL index, all launched
  jointly (line 127), interleaved cooperatively by the asyncio loop, gated by
  asyncio.Semaphore(max_requests) (line 77, used at line 86). A task is
  pending before it is scheduled, waiting once it has reached the semaphore,
  inFlight between semaphore acquisition and release, and done afterwards.
  asyncio.gather correlates results by task index: when a task completes, its
  result is written into the slot of its own input index, whatever the
  completion order.
-/

/-- Scheduling phase of one per-URL task relative to the semaphore. -/
inductive Phase
  | pending
  | waiting
  | inFlight
  | done
deriving DecidableEq

-- Decidable equality of Except values, needed for machine states below.
deriving instance DecidableEq for Except

/-- Global state of a scrape_all run: the phase of each task (by input
index), the free permits of the semaphore, and the result slot of each task. -/
structure MState where
  phases : List Phase
  avail : Nat
  slots : List (Option (Except Err (Option Record)))

/-- Interleaving steps of the asyncio loop: schedule a pending task up to the
semaphore, let a waiting task take a permit when one is free, or complete an
in-flight task, which returns the permit and writes the deterministic
per-URL result into the slot of its own index. -/
inductive MStep (env : Env) (urls : List String) : MState → MState → Prop
  | start (s : MState) (i : Nat) (h : s.phases[i]? = some Phase.pending) :
      MStep env urls s ⟨s.phases.set i Phase.waiting, s.avail, s.slots⟩
  | acquire (s : MState) (i : Nat) (h : s.phases[i]? = some Phase.waiting)
      (ha : 0 < s.avail) :
      MStep env urls s ⟨s.phases.set i Phase.inFlight, s.avail - 1, s.slots⟩
  | finish (s : MState) (i : Nat) (h : s.phases[i]? = some Phase.inFlight)
      (hu : i < urls.length) :
      MStep env urls s ⟨s.phases.set i Phase.done, s.avail + 1,
        s.slots.set i (some (scrape_data env (urls.get ⟨i, hu⟩)))⟩

/-- A state is reachable from another by any finite interleaving. -/
def Reachable (env : Env) (urls : List String) (s₁ s₂ : MState) : Prop :=
  Relation.ReflTransGen (MStep env urls) s₁ s₂

/-- Initial state of scrape_all: every task pending, all permits free, every
slot empty. -/
def initState (urls : List String) (maxRequests : Nat) : MState :=
  ⟨urls.map (fun _ => Phase.pending), maxRequests, urls.map (fun _ => none)⟩

/-- Run invariant: task and slot lists keep one entry per URL, free permits
plus in-flight tasks account for all max_requests permits, and a completed
task has the deterministic result of its own URL in its own slot. -/
def Inv (env : Env) (urls : List String) (maxRequests : Nat) (s : MState) : Prop :=
  s.phases.length = urls.length ∧
  s.slots.length = urls.length ∧
  s.avail + s.phases.count Phase.inFlight = maxRequests ∧
  ∀ i (hi : i < urls.length), s.phases[i]? = some Phase.done →
    s.slots[i]? = some (some (scrape_data env (urls.get ⟨i, hi⟩)))

/-
  Event trace of a single get_html_content call (lines 84-94), at the
  granularity of its await points: enter the semaphore context, issue
  session.get, then on success receive the response, sleep for the configured
  delay (line 90), read the body (line 91); on asyncio.TimeoutError print the
  diagnostic (line 93); on any other transport exception the exception is
  raised through the context manager. In every case the semaphore context is
  exited (the permit released) only at the end.
-/

/-- Observable events of one get_html_content call. -/
inductive FetchEvent
  | semAcquire
  | requestIssued (url : String)
  | responseReceived
  | sleepStart (seconds : Nat)
  | sleepEnd
  | bodyRead
  | timeoutLogged (url : String)
  | errorRaised (msg : String)
  | semRelease
deriving DecidableEq

/-- The trace of get_html_content for each fetch behavior, read off the
source: the `async with self.semaphore` block (line 86) wraps the whole
try, so the permit is taken first and given back last, on the success, the
timeout, and the uncaught-exception paths alike. -/
def get_html_content_events (delay : Nat) (url : String) (b : FetchBehavior) :
    List FetchEvent :=
  match b with
  | .success _ =>
      [FetchEvent.semAcquire, FetchEvent.requestIssued url,
       FetchEvent.responseReceived, FetchEvent.sleepStart delay,
       FetchEvent.sleepEnd, FetchEvent.bodyRead, FetchEvent.semRelease]
  | .timeout =>
      [FetchEvent.semAcquire, FetchEvent.requestIssued url,
       FetchEvent.timeoutLogged url, FetchEvent.semRelease]
  | .transportError msg =>
      [FetchEvent.semAcquire, FetchEvent.requestIssued url,
       FetchEvent.errorRaised msg, FetchEvent.semRelease]

/-- Bookkeeping for List.count under a point update: replacing the element
at a position known to hold `w` by `v` trades the indicator of `w` for the
indicator of `v`. -/
theorem count_set_balance {α : Type} [DecidableEq α] (p v w : α) :
    ∀ (l : List α) (i : Nat), l[i]? = some w →
      (l.set i v).count p + (if w = p then 1 else 0) =
        l.count p + (if v = p then 1 else 0) := by
  intro l
  induction l with
  | nil => intro i h; simp at h
  | cons a as ih =>
    intro i h
    cases i with
    | zero =>
      simp only [List.getElem?_cons_zero, Option.some.injEq] at h
      subst h
      by_cases ha : a = p <;> by_cases hv : v = p <;>
        simp [List.count_cons, ha, hv, beq_iff_eq]
    | succ n =>
      simp only [List.getElem?_cons_succ] at h
      have hrec := ih n h
      by_cases hw : w = p <;> by_cases ha : a = p <;> by_cases hv : v = p <;>
        simp [List.count_cons, hw, ha, hv, beq_iff_eq] at hrec ⊢ <;> omega

/-- The initial state of a run satisfies the invariant. -/
theorem inv_init (env : Env) (urls : List String) (maxRequests : Nat) :
    Inv env urls maxRequests (initState urls maxRequests) := by
  refine ⟨by simp [initState], by simp [initState], ?_, ?_⟩
  · simp [initState, List.count_replicate]
  · intro i hi hdone
    simp [initState, List.getElem?_replicate, hi] at hdone

/-- Every interleaving step preserves the invariant. -/
theorem inv_step {env : Env} {urls : List String} {maxRequests : Nat}
    {s₁ s₂ : MState} (hinv : Inv env urls maxRequests s₁)
    (hs : MStep env urls s₁ s₂) : Inv env urls maxRequests s₂ := by
  obtain ⟨hp, hsl, hsem, hdone⟩ := hinv
  cases hs with
  | start i h =>
    have hlen : i < s₁.phases.length := (List.getElem?_eq_some_iff.mp h).1
    refine ⟨by simpa using hp, hsl, ?_, ?_⟩
    · have hb := count_set_balance Phase.inFlight Phase.waiting Phase.pending
        s₁.phases i h
      simp at hb
      show s₁.avail + (s₁.phases.set i Phase.waiting).count Phase.inFlight =
        maxRequests
      omega
    · intro j hj hdj
      by_cases hij : i = j
      · subst hij
        rw [List.getElem?_set_self hlen] at hdj
        simp at hdj
      · rw [List.getElem?_set_ne hij] at hdj
        exact hdone j hj hdj
  | acquire i h ha =>
    have hlen : i < s₁.phases.length := (List.getElem?_eq_some_iff.mp h).1
    refine ⟨by simpa using hp, hsl, ?_, ?_⟩
    · have hb := count_set_balance Phase.inFlight Phase.inFlight Phase.waiting
        s₁.phases i h
      simp at hb
      show s₁.avail - 1 + (s₁.phases.set i Phase.inFlight).count Phase.inFlight
        = maxRequests
      omega
    · intro j hj hdj
      by_cases hij : i = j
      · subst hij
        rw [List.getElem?_set_self hlen] at hdj
        simp at hdj
      · rw [List.getElem?_set_ne hij] at hdj
        exact hdone j hj hdj
  | finish i h hu =>
    have hlen : i < s₁.phases.length := (List.getElem?_eq_some_iff.mp h).1
    refine ⟨by simpa using hp, by simpa using hsl, ?_, ?_⟩
    · have hb := count_set_balance Phase.inFlight Phase.done Phase.inFlight
        s₁.phases i h
      simp at hb
      show s₁.avail + 1 + (s₁.phases.set i Phase.done).count Phase.inFlight =
        maxRequests
      omega
    · intro j hj hdj
      by_cases hij : i = j
      · subst hij
        have hslen : i < s₁.slots.length := by omega
        show (s₁.slots.set i (some (scrape_data env (urls.get ⟨i, hu⟩))))[i]? =
          some (some (scrape_data env (urls.get ⟨i, hj⟩)))
        rw [List.getElem?_set_self hslen]
      · show (s₁.slots.set i (some (scrape_data env (urls.get ⟨i, hu⟩))))[j]? =
          some (some (scrape_data env (urls.get ⟨j, hj⟩)))
        rw [List.getElem?_set_ne hij]
        have hpj : (s₁.phases.set i Phase.done)[j]? = s₁.phases[j]? :=
          List.getElem?_set_ne hij
        rw [hpj] at hdj
        exact hdone j hj hdj

/-- The invariant holds in every state reachable from the initial one. -/
theorem reachable_inv {env : Env} {urls : List String} {maxRequests : Nat}
    {s : MState}
    (hreach : Reachable env urls (initState urls maxRequests) s) :
    Inv env urls maxRequests s := by
  induction hreach with
  | refl => exact inv_init env urls maxRequests
  | tail _ hstep ih => exact inv_step ih hstep

/-- When gather returns a result list, the result at each index is the value
of the task at the same index. -/
theorem gather_ok_get {α : Type} :
    ∀ (l : List (Except Err α)) (r : List α), gather l = .ok r →
      ∀ i : Nat, l[i]? = (r[i]?).map Except.ok := by
  intro l
  induction l with
  | nil =>
    intro r h i
    simp only [gather, Except.ok.injEq] at h
    subst h
    simp
  | cons x xs ih =>
    intro r h i
    cases x with
    | error e => simp [gather] at h
    | ok a =>
      cases hx : gather xs with
      | error e => simp [gather, hx] at h
      | ok as =>
        simp only [gather, hx, Except.ok.injEq] at h
        subst h
        cases i with
        | zero => simp
        | succ n => simpa using ih as hx n

/-- When gather returns, there is one result per task. -/
theorem gather_ok_length {α : Type} :
    ∀ (l : List (Except Err α)) (r : List α), gather l = .ok r →
      r.length = l.length := by
  intro l
  induction l with
  | nil =>
    intro r h
    simp only [gather, Except.ok.injEq] at h
    subst h
    rfl
  | cons x xs ih =>
    intro r h
    cases x with
    | error e => simp [gather] at h
    | ok a =>
      cases hx : gather xs with
      | error e => simp [gather, hx] at h
      | ok as =>
        simp only [gather, hx, Except.ok.injEq] at h
        subst h
        simpa using ih as hx

/-- The records constructor, when it succeeds, produces one row per input
entry. -/
theorem pdDataFrame_nRows (results : List (Option Record)) (t : Table)
    (h : pdDataFrame results = .ok t) : t.nRows = results.length := by
  cases results with
  | nil =>
    simp only [pdDataFrame, Except.ok.injEq] at h
    subst h
    rfl
  | cons x rest =>
    cases x with
    | none =>
      simp only [pdDataFrame, Except.ok.injEq] at h
      subst h
      rfl
    | some r =>
      simp only [pdDataFrame] at h
      split at h
      · cases h
      · simp only [Except.ok.injEq] at h
        subst h
        rfl

/-- Folding the key-union step over records that all carry exactly the key
list `ks` leaves an accumulator `ks` unchanged. -/
theorem unionKeys_aux (ks : List String) :
    ∀ rs : List Record, (∀ r ∈ rs, r.map Prod.fst = ks) →
      rs.foldl
        (fun acc r => acc ++ ((r.map Prod.fst).filter (fun k => k ∉ acc)))
        ks = ks := by
  intro rs
  induction rs with
  | nil => intro _; rfl
  | cons r rest ih =>
    intro hall
    have hr : r.map Prod.fst = ks := hall r (List.mem_cons_self r rest)
    have hfil : ks.filter (fun k => k ∉ ks) = [] := by
      rw [List.filter_eq_nil_iff]
      intro a ha
      simp [ha]
    have hstep : ks ++ ((r.map Prod.fst).filter (fun k => k ∉ ks)) = ks := by
      rw [hr, hfil, List.append_nil]
    simp only [List.foldl_cons, hstep]
    exact ih (fun x hx => hall x (List.mem_cons_of_mem r hx))

/-- Column inference over records that all carry exactly the key list `ks`
yields `ks`. -/
theorem unionKeys_const (ks : List String) (rs : List Record)
    (hne : rs ≠ []) (hall : ∀ r ∈ rs, r.map Prod.fst = ks) :
    unionKeys rs = ks := by
  cases rs with
  | nil => exact absurd rfl hne
  | cons r rest =>
    have hr : r.map Prod.fst = ks := hall r (List.mem_cons_self r rest)
    have h0 : (([] : List String) ++
        ((r.map Prod.fst).filter (fun k => k ∉ ([] : List String)))) = ks := by
      simp [hr]
    unfold unionKeys
    simp only [List.foldl_cons]
    rw [h0]
    exact unionKeys_aux ks rest (fun x hx => hall x (List.mem_cons_of_mem r hx))

/-- The keys of the texts dict are the twelve field names in dict order. -/
theorem texts_keys (sel : String → List String) :
    (texts sel).map Prod.fst = fieldNames := rfl

/-- Cell at row `i` of the url column of a table. -/
def tableUrlCell (t : Table) (i : Nat) : Option Cell :=
  match t.cols.lookup "url" with
  | none => none
  | some col => col[i]?

/-- Building labelled columns from a key list keeps exactly those labels. -/
theorem map_fst_pairs {β : Type} (f : String → β) (ks : List String) :
    (ks.map (fun k => (k, f k))).map Prod.fst = ks := by
  induction ks with
  | nil => rfl
  | cons k ks ih => simp [ih]

/-- Index-alignment padding does not change column labels. -/
theorem map_fst_pad (n : Nat) (cols : List (String × List Cell)) :
    (cols.map (fun kc => (kc.1, padTo n kc.2))).map Prod.fst =
      cols.map Prod.fst := by
  rw [List.map_map]
  rfl

/-- Padding an all-absent column keeps every cell absent. -/
theorem pad_all_na (n : Nat) (xs : List Cell) (h : ∀ x ∈ xs, x = Cell.na) :
    ∀ c ∈ padTo n xs, c = Cell.na := by
  intro c hc
  rcases List.mem_append.mp hc with h1 | h2
  · exact h c h1
  · exact List.eq_of_mem_replicate h2

/-- The ndarray-path cells of an all-None result list are all absent. -/
theorem map_cellify_all_na (results : List (Option Record))
    (h : ∀ x ∈ results, x = none) :
    ∀ c ∈ results.map (fun x => match x with
      | none => Cell.na
      | some r => Cell.obj r), c = Cell.na := by
  intro c hc
  rcases List.mem_map.mp hc with ⟨a, ham, hac⟩
  rw [h a ham] at hac
  exact hac.symm

/-- The column labels of an axis-1 concat are the labels of the left frame
followed by the labels of the right frame. -/
theorem pdConcatAxis1_colNames (a b : Table) :
    (pdConcatAxis1 a b).cols.map Prod.fst =
      a.cols.map Prod.fst ++ b.cols.map Prod.fst := by
  show ((a.cols.map (fun kc => (kc.1, padTo (max a.nRows b.nRows) kc.2))) ++
      (b.cols.map (fun kc => (kc.1, padTo (max a.nRows b.nRows) kc.2)))).map
        Prod.fst = a.cols.map Prod.fst ++ b.cols.map Prod.fst
  rw [List.map_append, map_fst_pad, map_fst_pad]

/-- A successful scrape_all run decomposes into a successful gather, a
successful DataFrame construction, and the axis-1 concat. -/
theorem scrape_all_ok_decomp (env : Env) (urls : List String) (t : Table)
    (hok : scrape_all env urls = .ok t) :
    ∃ results scraped,
      gather (urls.map (scrape_data env)) = .ok results ∧
      pdDataFrame results = .ok scraped ∧
      t = pdConcatAxis1 (urlTable urls) scraped := by
  cases hg : gather (urls.map (scrape_data env)) with
  | error e => simp [scrape_all, hg] at hok
  | ok results =>
    cases hdf : pdDataFrame results with
    | error e => simp [scrape_all, hg, hdf] at hok
    | ok scraped =>
      refine ⟨results, scraped, rfl, hdf, ?_⟩
      simp only [scrape_all, hg, hdf, Except.ok.injEq] at hok
      exact hok.symm

/-- Environment in which every fetch succeeds and no selector matches. -/
def envNoop : Env :=
  { fetch := fun _ => FetchBehavior.success "<html></html>",
    select := fun _ _ => [] }

/-- Environment in which every fetch times out. -/
def envTimeoutAll : Env :=
  { fetch := fun _ => FetchBehavior.timeout,
    select := fun _ _ => [] }

/-- Environment in which only the fetch of https://b times out. -/
def envMixed : Env :=
  { fetch := fun u =>
      if u = "https://b" then FetchBehavior.timeout
      else FetchBehavior.success "<html></html>",
    select := fun _ _ => [] }

/-- Environment in which the fetch of https://b raises a non-timeout
transport error. -/
def envBroken : Env :=
  { fetch := fun u =>
      if u = "https://b" then FetchBehavior.transportError "ConnectionReset"
      else FetchBehavior.success "<html></html>",
    select := fun _ _ => [] }

/-- C4: for every document and each of the twelve fields, the extracted
value is the whitespace-trimmed text of each matched node joined by single
spaces in document order when the selector matches at least one node, and
the absent marker, a sentinel distinct from the empty string, when it
matches none. -/
theorem field_extraction_contract (sel : String → List String)
    (k v : String) (h : (k, v) ∈ elements) :
    (texts sel).lookup k =
      some (if (sel v).isEmpty then none
            else some (String.intercalate " " ((sel v).map String.trim))) ∧
    (none : Option String) ≠ some "" := by
  refine ⟨?_, by simp⟩
  fin_cases h <;> rfl

/-- C4 witness: the title field of a document in which no selector matches
is the absent marker. -/
theorem field_extraction_contract_witness :
    (texts (fun _ => [])).lookup "title" = some none ∧
    (none : Option String) ≠ some "" :=
  field_extraction_contract (fun _ => []) "title"
    "header#heading.heading div#full-view-heading.full-view h1.heading-title"
    (List.mem_cons_self _ _)

/-- C6: extraction is total: for every document the texts dict carries
exactly the twelve fixed keys in order, and a document in which no selector
matches any node yields all twelve fields absent. -/
theorem extraction_total_twelve_fields (sel : String → List String) :
    (texts sel).map Prod.fst = fieldNames ∧
    ((∀ q, sel q = []) → ∀ kv ∈ texts sel, kv.2 = none) := by
  refine ⟨texts_keys sel, ?_⟩
  intro hnone kv hkv
  rcases List.mem_map.mp hkv with ⟨pair, hmem, rfl⟩
  simp [extractField, hnone]

/-- C6 witness: over the empty document the key list is the twelve fields
and the title entry, a member of the dict, is absent. -/
theorem extraction_total_twelve_fields_witness :
    (texts (fun _ => [])).map Prod.fst = fieldNames ∧
    (("title", (none : Option String)) : String × Option String).2 = none :=
  ⟨(extraction_total_twelve_fields (fun _ => [])).1,
   (extraction_total_twelve_fields (fun _ => [])).2 (fun _ => rfl)
     ("title", none) (List.mem_cons_self _ _)⟩

/-- C5: for every fetch the semaphore permit is taken before the request is
issued and given back only after everything else on the success, timeout and
error paths alike; on success the fixed post-response sleep happens strictly
inside the permit-holding window. -/
theorem permit_window_covers_request_and_delay (delay : Nat) (url : String)
    (b : FetchBehavior) :
    (get_html_content_events delay url b).head? = some FetchEvent.semAcquire ∧
    (get_html_content_events delay url b).getLast? =
      some FetchEvent.semRelease ∧
    (get_html_content_events delay url b).count FetchEvent.semAcquire = 1 ∧
    (get_html_content_events delay url b).count FetchEvent.semRelease = 1 ∧
    ∀ html, b = FetchBehavior.success html →
      ∃ pre post,
        get_html_content_events delay url b =
          pre ++ FetchEvent.sleepStart delay :: FetchEvent.sleepEnd :: post ∧
        FetchEvent.semAcquire ∈ pre ∧
        FetchEvent.requestIssued url ∈ pre ∧
        FetchEvent.responseReceived ∈ pre ∧
        post = [FetchEvent.bodyRead, FetchEvent.semRelease] := by
  cases b with
  | success html =>
    refine ⟨rfl, rfl, rfl, rfl, ?_⟩
    intro h hb
    exact ⟨[FetchEvent.semAcquire, FetchEvent.requestIssued url,
            FetchEvent.responseReceived],
           [FetchEvent.bodyRead, FetchEvent.semRelease],
           rfl, by simp, by simp, by simp, rfl⟩
  | timeout => exact ⟨rfl, rfl, rfl, rfl, fun _ hb => nomatch hb⟩
  | transportError msg => exact ⟨rfl, rfl, rfl, rfl, fun _ hb => nomatch hb⟩

/-- C5 witness: the success-path trace at delay 1, with the sleep inside the
permit window. -/
theorem permit_window_witness :
    ∃ pre post,
      get_html_content_events 1 "https://a" (FetchBehavior.success "h") =
        pre ++ FetchEvent.sleepStart 1 :: FetchEvent.sleepEnd :: post ∧
      FetchEvent.semAcquire ∈ pre ∧
      FetchEvent.requestIssued "https://a" ∈ pre ∧
      FetchEvent.responseReceived ∈ pre ∧
      post = [FetchEvent.bodyRead, FetchEvent.semRelease] :=
  (permit_window_covers_request_and_delay 1 "https://a"
    (FetchBehavior.success "h")).2.2.2.2 "h" rfl

/-- C9: an input file without a url column makes the run fail during
loading with a KeyError: no fetch is attempted and no output file is
written. -/
theorem missing_url_column_fatal (env : Env) (input : InputFile)
    (outputFile : String) (h : "url" ∉ input.columns) :
    (mainRun env input outputFile).1 = .error (.keyError "url") ∧
    (mainRun env input outputFile).2 = [] := by
  simp [mainRun, load_data, h]

/-- C9 witness: a file with only a link column fails fatally with no
events. -/
theorem missing_url_column_fatal_witness :
    ("url" ∉ (InputFile.mk ["link"] []).columns) ∧
    (mainRun envNoop (InputFile.mk ["link"] []) "out.csv").1 =
      .error (.keyError "url") ∧
    (mainRun envNoop (InputFile.mk ["link"] []) "out.csv").2 = [] :=
  ⟨by decide,
   (missing_url_column_fatal envNoop ⟨["link"], []⟩ "out.csv" (by decide)).1,
   (missing_url_column_fatal envNoop ⟨["link"], []⟩ "out.csv" (by decide)).2⟩

/-- C3: evaluation at the failing input. In a two-URL batch where only the
second fetch times out, get_html_content itself absorbs the timeout into
the None marker and prints the diagnostic naming the URL, but the batch
does not end with two rows: the pandas records constructor raises
AttributeError on the None entry of the gathered results, scrape_all
propagates it, and the output file is never written. -/
theorem timeout_absorbed_but_assembly_crashes :
    get_html_content envMixed "https://b" = .ok none ∧
    get_html_printed envMixed "https://b" =
      ["TimeoutError occurred while fetching https://b"] ∧
    scrape_all envMixed ["https://a", "https://b"] =
      .error (.attributeError "NoneType object has no attribute keys") ∧
    (mainRun envMixed ⟨["url"], ["https://a", "https://b"]⟩ "out.csv").2 =
      [Ev.fetchAttempt "https://a", Ev.fetchAttempt "https://b"] :=
  ⟨rfl, rfl, rfl, rfl⟩

/-- C2: in every state reachable by any interleaving of a scrape_all run
started with max_requests permits, the number of tasks currently between
semaphore acquisition and release never exceeds max_requests. -/
theorem concurrent_fetches_bounded (env : Env) (urls : List String)
    (maxRequests : Nat) (s : MState)
    (hreach : Reachable env urls (initState urls maxRequests) s) :
    s.phases.count Phase.inFlight ≤ maxRequests := by
  obtain ⟨-, -, hsem, -⟩ := reachable_inv hreach
  omega

/-- C2 witness: a reachable state with one fetch in flight under the default
bound of five. -/
theorem concurrent_fetches_bounded_witness :
    (MState.mk [Phase.inFlight] 4 [none]).phases.count Phase.inFlight ≤ 5 :=
  concurrent_fetches_bounded envNoop ["https://a"] 5 _
    (Relation.ReflTransGen.head (MStep.start _ 0 rfl)
      (Relation.ReflTransGen.head (MStep.acquire _ 0 rfl (by decide))
        Relation.ReflTransGen.refl))

/-- C7: a non-timeout transport failure of any URL in the batch is not
recovered: the whole gather aborts with the exception, the other results
are lost, and the output file is never written. -/
theorem transport_failure_aborts_batch (env : Env) (input : InputFile)
    (outputFile : String)
    (h : ∃ u ∈ input.urls, ∃ msg,
      env.fetch u = FetchBehavior.transportError msg) :
    (∃ e, scrape_all env input.urls = Except.error e) ∧
    ∀ p, Ev.fileWrite p ∉ (mainRun env input outputFile).2 := by
  obtain ⟨u, hu, msg, hmsg⟩ := h
  have herr : ∃ e, gather (input.urls.map (scrape_data env)) =
      Except.error e := by
    cases hg : gather (input.urls.map (scrape_data env)) with
    | error e => exact ⟨e, rfl⟩
    | ok r =>
      exfalso
      obtain ⟨i, hi⟩ := List.getElem?_of_mem hu
      have hpt := gather_ok_get _ _ hg i
      rw [List.getElem?_map, hi] at hpt
      have hsd : scrape_data env u = .error (.transport msg) := by
        simp [scrape_data, get_html_content, hmsg]
      cases hr : r[i]? with
      | none => rw [hr] at hpt; simp at hpt
      | some y => rw [hr] at hpt; simp [hsd] at hpt
  obtain ⟨e, he⟩ := herr
  have hsa : scrape_all env input.urls = Except.error e := by
    simp [scrape_all, he]
  refine ⟨⟨e, hsa⟩, ?_⟩
  intro p hp
  by_cases hcol : "url" ∈ input.columns
  · have hld : load_data input = .ok input.urls := by simp [load_data, hcol]
    simp only [mainRun, hld, hsa, List.mem_map] at hp
    obtain ⟨a, -, ha⟩ := hp
    cases ha
  · have hld : load_data input = .error (.keyError "url") := by
      simp [load_data, hcol]
    simp only [mainRun, hld] at hp
    cases hp

/-- C7 witness: a two-URL batch whose second fetch hits a connection reset
never writes its output file. -/
theorem transport_failure_aborts_batch_witness :
    Ev.fileWrite "out.csv" ∉
      (mainRun envBroken ⟨["url"], ["https://a", "https://b"]⟩ "out.csv").2 :=
  (transport_failure_aborts_batch envBroken
    ⟨["url"], ["https://a", "https://b"]⟩ "out.csv"
    ⟨"https://b", by simp, "ConnectionReset", rfl⟩).2 "out.csv"

/-- C1: for every interleaving of the concurrent per-URL tasks that
completes them all, each result slot holds the result determined by the URL
of its own input index, independently of completion order; and whenever
such a run assembles a table, the table has exactly one row per input URL
and the url cell of row i is input URL i. -/
theorem scrape_all_order_preservation (env : Env) (urls : List String)
    (maxRequests : Nat) (s : MState)
    (hreach : Reachable env urls (initState urls maxRequests) s)
    (hdone : ∀ i, i < urls.length → s.phases[i]? = some Phase.done)
    (t : Table) (hok : scrape_all env urls = .ok t) :
    s.slots = urls.map (fun u => some (scrape_data env u)) ∧
    t.nRows = urls.length ∧
    ∀ i : Nat, tableUrlCell t i = (urls[i]?).map Cell.text := by
  obtain ⟨hp, hsl, -, hslot⟩ := reachable_inv hreach
  obtain ⟨results, scraped, hg, hdf, ht⟩ := scrape_all_ok_decomp env urls t hok
  have hrlen : results.length = urls.length := by
    have := gather_ok_length _ _ hg
    simpa using this
  have hsn : scraped.nRows = results.length := pdDataFrame_nRows _ _ hdf
  have hmax : max (urlTable urls).nRows scraped.nRows = urls.length := by
    simp [urlTable, hsn, hrlen]
  refine ⟨?_, ?_, ?_⟩
  · apply List.ext_getElem?
    intro i
    by_cases hi : i < urls.length
    · rw [hslot i hi (hdone i hi), List.getElem?_map,
        List.getElem?_eq_getElem hi]
      rfl
    · have h1 : s.slots[i]? = none := List.getElem?_eq_none (by omega)
      have h2 : (urls.map (fun u => some (scrape_data env u)))[i]? = none :=
        List.getElem?_eq_none (by simp; omega)
      rw [h1, h2]
  · rw [ht]
    show max (urlTable urls).nRows scraped.nRows = urls.length
    exact hmax
  · intro i
    subst ht
    have hmax2 : urls.length ⊔ scraped.nRows = urls.length := by omega
    have hpad : padTo (urls.length ⊔ scraped.nRows)
        (List.map Cell.text urls) = List.map Cell.text urls := by
      simp [padTo, hmax2]
    show tableUrlCell (pdConcatAxis1 (urlTable urls) scraped) i =
      (urls[i]?).map Cell.text
    simp [tableUrlCell, pdConcatAxis1, urlTable, List.lookup, hpad]

/-- C1 witness: an explicit complete interleaving of a one-URL run and its
assembled table. -/
theorem scrape_all_order_preservation_witness :
    (MState.mk [Phase.done] 1
        [some (scrape_data envNoop "https://a")]).slots =
      ["https://a"].map (fun u => some (scrape_data envNoop u)) ∧
    (Table.mk 1 (("url", [Cell.text "https://a"]) ::
        fieldNames.map (fun k => (k, [Cell.na])))).nRows = 1 ∧
    tableUrlCell (Table.mk 1 (("url", [Cell.text "https://a"]) ::
        fieldNames.map (fun k => (k, [Cell.na])))) 0 =
      some (Cell.text "https://a") := by
  have h := scrape_all_order_preservation envNoop ["https://a"] 1
    (MState.mk [Phase.done] 1 [some (scrape_data envNoop "https://a")])
    (Relation.ReflTransGen.head
      (MStep.start (initState ["https://a"] 1) 0 rfl)
      (Relation.ReflTransGen.head
        (MStep.acquire (MState.mk [Phase.waiting] 1 [none]) 0 rfl (by decide))
        (Relation.ReflTransGen.head
          (MStep.finish (MState.mk [Phase.inFlight] 0 [none]) 0 rfl
            (by decide))
          Relation.ReflTransGen.refl)))
    (by
      intro i hi
      simp only [List.length_cons, List.length_nil] at hi
      have h0 : i = 0 := by omega
      subst h0
      rfl)
    (Table.mk 1 (("url", [Cell.text "https://a"]) ::
        fieldNames.map (fun k => (k, [Cell.na]))))
    rfl
  exact ⟨h.1, h.2.1, h.2.2 0⟩

/-- C8 counterexample: the empty input list gives a completed run (no
exception is raised anywhere), yet the written header is just url, not the
thirteen claimed columns. -/
theorem output_columns_claim_fails_on_empty_run :
    scrape_all envNoop [] = .ok (Table.mk 0 [("url", [])]) ∧
    to_csv_header (Table.mk 0 [("url", [])]) false ≠ "url" :: fieldNames :=
  ⟨rfl, by decide⟩

/-- C8 (amended): for every completed run with at least one input URL in
which every fetch succeeded, the written table has exactly the columns url,
title, publication_type, journal, coi, grants, authors, abstracts, pmid,
pmcid, doi, citation, erratum in that order, one row per input URL, and no
surrogate row index column (to_csv is called with index=False). -/
theorem output_columns_all_success_run (env : Env) (urls : List String)
    (t : Table) (hne : urls ≠ [])
    (hsucc : ∀ u ∈ urls, ∃ html, env.fetch u = FetchBehavior.success html)
    (hok : scrape_all env urls = .ok t) :
    to_csv_header t false = "url" :: fieldNames ∧ t.nRows = urls.length := by
  obtain ⟨results, scraped, hg, hdf, ht⟩ := scrape_all_ok_decomp env urls t hok
  have hrlen : results.length = urls.length := by
    have := gather_ok_length _ _ hg
    simpa using this
  have hsn : scraped.nRows = results.length := pdDataFrame_nRows _ _ hdf
  have hx : ∀ x ∈ results, ∃ r : Record, x = some r ∧
      r.map Prod.fst = fieldNames := by
    intro x hxmem
    obtain ⟨i, hi⟩ := List.getElem?_of_mem hxmem
    have hpt := gather_ok_get _ _ hg i
    rw [List.getElem?_map] at hpt
    cases hu : urls[i]? with
    | none => rw [hu, hi] at hpt; simp at hpt
    | some u =>
      rw [hu, hi] at hpt
      have humem : u ∈ urls := List.mem_iff_getElem?.mpr ⟨i, hu⟩
      obtain ⟨html, hf⟩ := hsucc u humem
      have hsd : scrape_data env u = .ok (some (texts (env.select html))) := by
        simp [scrape_data, get_html_content, hf]
      simp [hsd] at hpt
      exact ⟨texts (env.select html), hpt.symm, texts_keys (env.select html)⟩
  cases results with
  | nil =>
    exfalso
    exact hne (List.length_eq_zero.mp (by simpa using hrlen.symm))
  | cons y rs =>
    obtain ⟨r₀, hy, hk₀⟩ := hx y (List.mem_cons_self _ _)
    subst hy
    have hnone : (some r₀ :: rs).any (fun x => x.isNone) = false := by
      rw [List.any_eq_false]
      intro x hxm
      obtain ⟨r, hxr, -⟩ := hx x hxm
      simp [hxr]
    simp only [pdDataFrame, hnone, Bool.false_eq_true, if_false,
      Except.ok.injEq] at hdf
    have hkeys : unionKeys ((some r₀ :: rs).filterMap id) = fieldNames := by
      apply unionKeys_const
      · simp
      · intro r hr
        rw [List.mem_filterMap] at hr
        obtain ⟨a, ham, hai⟩ := hr
        obtain ⟨r2, har, hk⟩ := hx a ham
        rw [har] at hai
        simp only [id_eq, Option.some.injEq] at hai
        rw [← hai]
        exact hk
    have hback : scraped.cols.map Prod.fst = fieldNames := by
      rw [← hdf]
      show ((unionKeys ((some r₀ :: rs).filterMap id)).map
        (fun k => (k, ((some r₀ :: rs).filterMap id).map
          (fun r => recCell r k)))).map Prod.fst = fieldNames
      rw [map_fst_pairs]
      exact hkeys
    subst ht
    constructor
    · show to_csv_header (pdConcatAxis1 (urlTable urls) scraped) false =
        "url" :: fieldNames
      simp [to_csv_header, pdConcatAxis1_colNames, urlTable, hback]
    · show (pdConcatAxis1 (urlTable urls) scraped).nRows = urls.length
      have hun : (urlTable urls).nRows = urls.length := rfl
      show max (urlTable urls).nRows scraped.nRows = urls.length
      omega

/-- C8 witness: a completed one-URL all-success run carries exactly the
thirteen columns and one row. -/
theorem output_columns_all_success_run_witness :
    to_csv_header (Table.mk 1 (("url", [Cell.text "https://a"]) ::
        fieldNames.map (fun k => (k, [Cell.na])))) false =
      "url" :: fieldNames ∧
    (Table.mk 1 (("url", [Cell.text "https://a"]) ::
        fieldNames.map (fun k => (k, [Cell.na])))).nRows = 1 :=
  output_columns_all_success_run envNoop ["https://a"]
    (Table.mk 1 (("url", [Cell.text "https://a"]) ::
      fieldNames.map (fun k => (k, [Cell.na]))))
    (List.cons_ne_nil _ _)
    (fun _ _ => ⟨"<html></html>", rfl⟩) rfl

/-- C10 counterexample: a one-URL batch whose only fetch times out completes,
but the assembled table is not url-only: a surrogate column labelled 0
appears next to url. -/
theorem url_only_claim_fails_on_all_timeout :
    scrape_all envTimeoutAll ["https://a"] =
      .ok (Table.mk 1 [("url", [Cell.text "https://a"]), ("0", [Cell.na])]) ∧
    (Table.mk 1 [("url", [Cell.text "https://a"]),
      ("0", [Cell.na])]).cols.map Prod.fst ≠ ["url"] :=
  ⟨rfl, by decide⟩

/-- C10 (amended): with an empty URL list the assembled table has only the
url column; in a nonempty batch in which every fetch times out the twelve
field columns are likewise missing, but the table is not url-only: the
constructor falls back to the ndarray path and adds one surrogate column
labelled 0 whose cells are all absent. -/
theorem degenerate_batch_columns (env : Env) (urls : List String) (t : Table)
    (hall : ∀ u ∈ urls, env.fetch u = FetchBehavior.timeout)
    (hok : scrape_all env urls = .ok t) :
    t.cols.map Prod.fst = (if urls.isEmpty then ["url"] else ["url", "0"]) ∧
    ∀ cells, t.cols.lookup "0" = some cells → ∀ c ∈ cells, c = Cell.na := by
  obtain ⟨results, scraped, hg, hdf, ht⟩ := scrape_all_ok_decomp env urls t hok
  have hrlen : results.length = urls.length := by
    have := gather_ok_length _ _ hg
    simpa using this
  have hx : ∀ x ∈ results, x = none := by
    intro x hxm
    obtain ⟨i, hi⟩ := List.getElem?_of_mem hxm
    have hpt := gather_ok_get _ _ hg i
    rw [List.getElem?_map] at hpt
    cases hu : urls[i]? with
    | none => rw [hu, hi] at hpt; simp at hpt
    | some u =>
      rw [hu, hi] at hpt
      have humem : u ∈ urls := List.mem_iff_getElem?.mpr ⟨i, hu⟩
      have hsd : scrape_data env u = .ok none := by
        simp [scrape_data, get_html_content, hall u humem]
      simp [hsd] at hpt
      exact hpt.symm
  cases urls with
  | nil =>
    have hres : results = [] := List.length_eq_zero.mp (by simpa using hrlen)
    subst hres
    simp only [pdDataFrame, Except.ok.injEq] at hdf
    subst ht
    rw [← hdf]
    constructor
    · rfl
    · intro cells hc c hcmem
      have hl : (pdConcatAxis1 (urlTable []) (Table.mk 0 [])).cols.lookup "0" =
          none := rfl
      exact absurd (hl.symm.trans hc) (by simp)
  | cons u₀ rest =>
    cases results with
    | nil => simp at hrlen
    | cons y rs =>
      have hy : y = none := hx y (List.mem_cons_self _ _)
      subst hy
      simp only [pdDataFrame, Except.ok.injEq] at hdf
      subst ht
      rw [← hdf]
      constructor
      · rfl
      · intro cells hc c hcmem
        have hl : (pdConcatAxis1 (urlTable (u₀ :: rest))
            (Table.mk (none :: rs).length
              [("0", (none :: rs).map (fun x => match x with
                | none => Cell.na
                | some r => Cell.obj r))])).cols.lookup "0" =
            some (padTo ((u₀ :: rest).length ⊔ (none :: rs).length)
              ((none :: rs).map (fun x => match x with
                | none => Cell.na
                | some r => Cell.obj r))) := rfl
        have hcl : cells = padTo ((u₀ :: rest).length ⊔ (none :: rs).length)
            ((none :: rs).map (fun x => match x with
              | none => Cell.na
              | some r => Cell.obj r)) := by
          have h2 := hl.symm.trans hc
          exact ((Option.some.injEq _ _).mp h2).symm
        subst hcl
        refine pad_all_na _ _ ?_ c hcmem
        exact map_cellify_all_na (none :: rs) hx

/-- C10 witness: the all-timeout one-URL batch yields exactly the columns
url and 0. -/
theorem degenerate_batch_columns_witness :
    (Table.mk 1 [("url", [Cell.text "https://a"]),
        ("0", [Cell.na])]).cols.map Prod.fst =
      (if (["https://a"] : List String).isEmpty then ["url"]
       else ["url", "0"]) :=
  (degenerate_batch_columns envTimeoutAll ["https://a"]
    (Table.mk 1 [("url", [Cell.text "https://a"]), ("0", [Cell.na])])
    (fun _ _ => rfl) rfl).1

end PubmedScraper
